import Mathlib

/-!
Verification of quest-shadowplay's replay-buffer core.

The definitions below are a shallow embedding of the Rust sources:

* `RingBuffer` — src/buffer/ring_buffer.rs (`VecDeque` modelled as a list
  whose head is the front/oldest element).
* `SharedFrameBuffer` — src/buffer/mod.rs (the `RwLock` wrapper; locking is a
  no-op in the sequential embedding, so the wrapper simply owns the ring
  buffer plus the computed capacity).  The source computes the capacity as
  `(duration_seconds * fps as f32).ceil() as usize` in IEEE f32; the
  embedding models the f32 arithmetic explicitly with `f32Round`
  (round-to-nearest-even at a 24-bit significand) applied to the `u32 → f32`
  cast and to the product, followed by the exact ceiling and clamped
  truncation, which are lossless on the rounded value.
* `CapturedFrame` — src/capture/frame.rs.
* `InputState`, `InputHandler` — src/input/mod.rs (f32 axis values modelled
  as `ℚ`; `Instant` modelled as a monotone `Nat` clock passed explicitly).
* `VideoEncoder`, `Mp4Muxer`, `encode_frames` — src/encoder/mod.rs (the JPEG
  decoder from the `image` crate is an external collaborator and is passed in
  as a function parameter; file I/O is modelled by returning the bytes the
  muxer writes).
* `trigger_save` — src/lib.rs (the spawned thread's body is run to completion
  after the caller's steps; `encode_frames`' outcome is a parameter).
* `save_clip` — src-tauri/src/commands.rs (directory creation and encoding
  outcomes are parameters).
-/

namespace QuestShadowplay

/-! ### Ring buffer (src/buffer/ring_buffer.rs) -/

/-- `RingBuffer<T>`: the `VecDeque` storage (head = front = oldest element)
together with the fixed `capacity`. -/
structure RingBuffer (T : Type) where
  data : List T
  capacity : Nat
deriving Repr, DecidableEq

/-- `RingBuffer::new(capacity)`: empty storage with the given capacity. -/
def RingBuffer.new (T : Type) (capacity : Nat) : RingBuffer T :=
  { data := [], capacity := capacity }

/-- `RingBuffer::push`: if `data.len() >= capacity`, `pop_front()` the oldest
(no-op on an empty deque), then `push_back(item)`. -/
def RingBuffer.push {T : Type} (b : RingBuffer T) (item : T) : RingBuffer T :=
  let d := if b.capacity ≤ b.data.length then b.data.drop 1 else b.data
  { b with data := d ++ [item] }

/-- `RingBuffer::get_all`: all items, oldest first. -/
def RingBuffer.get_all {T : Type} (b : RingBuffer T) : List T :=
  b.data

/-- `RingBuffer::len`. -/
def RingBuffer.len {T : Type} (b : RingBuffer T) : Nat :=
  b.data.length

/-- `RingBuffer::is_empty`. -/
def RingBuffer.is_empty {T : Type} (b : RingBuffer T) : Bool :=
  b.data.isEmpty

/-- `RingBuffer::is_full`: `data.len() >= capacity`. -/
def RingBuffer.is_full {T : Type} (b : RingBuffer T) : Bool :=
  b.capacity ≤ b.data.length

/-- `RingBuffer::clear`. -/
def RingBuffer.clear {T : Type} (b : RingBuffer T) : RingBuffer T :=
  { b with data := [] }

/-- `RingBuffer::peek_oldest` (`data.front()`). -/
def RingBuffer.peek_oldest {T : Type} (b : RingBuffer T) : Option T :=
  b.data.head?

/-- `RingBuffer::peek_newest` (`data.back()`). -/
def RingBuffer.peek_newest {T : Type} (b : RingBuffer T) : Option T :=
  b.data.getLast?

/-- Iterated `push`, in list order (first element pushed first). -/
def RingBuffer.pushAll {T : Type} (b : RingBuffer T) (xs : List T) : RingBuffer T :=
  xs.foldl RingBuffer.push b

/-! ### Captured frames (src/capture/frame.rs) -/

/-- `CapturedFrame`: JPEG payload bytes, capture timestamp, eye index and
dimensions.  Bytes are `Nat`s (each < 256 in the real program; nothing below
depends on the bound). -/
structure CapturedFrame where
  data : List Nat
  timestamp_ns : Nat
  eye_index : Nat
  width : Nat
  height : Nat
deriving Repr, DecidableEq

/-! ### IEEE binary32 rounding model

The capacity computation in src/buffer/mod.rs runs in f32:
`(duration_seconds * fps as f32).ceil() as usize`.  The model below performs
that arithmetic explicitly: a rational is rounded to the nearest value with a
24-bit significand (round-to-nearest-even, the IEEE default).  Overflow to
infinity and subnormal underflow are outside the range these computations
ever reach (capacities are moderate positive values) and are not modelled.
The `ceil` step is exact on every f32 value in range (integers up to `2^24`
are representable, and any f32 of magnitude `≥ 2^24` is already an integer),
and `as usize` truncates the integral result, clamping negatives to zero,
which `Int.toNat` mirrors. -/

/-- Round to the nearest integer, ties to even. -/
def roundHalfEven (q : ℚ) : ℤ :=
  if q - ⌊q⌋ < 1/2 then ⌊q⌋
  else if 1/2 < q - ⌊q⌋ then ⌊q⌋ + 1
  else if ⌊q⌋ % 2 = 0 then ⌊q⌋ else ⌊q⌋ + 1

/-- Round a positive rational to the nearest IEEE binary32 value: scale into
`[2^23, 2^24)`, round the significand to the nearest integer (ties to even),
and scale back. -/
def f32RoundPos (q : ℚ) : ℚ :=
  ((roundHalfEven (q / (2 : ℚ) ^ (Int.log 2 q - 23)) : ℚ))
    * (2 : ℚ) ^ (Int.log 2 q - 23)

/-- Round a rational to the nearest IEEE binary32 value (normal range). -/
def f32Round (q : ℚ) : ℚ :=
  if 0 < q then f32RoundPos q
  else if q < 0 then -f32RoundPos (-q)
  else 0

lemma roundHalfEven_eq_of_lt_half (q : ℚ) (n : ℤ) (h1 : (n : ℚ) ≤ q)
    (h2 : q < (n : ℚ) + 1/2) : roundHalfEven q = n := by
  have hf : ⌊q⌋ = n := Int.floor_eq_iff.mpr ⟨h1, by linarith⟩
  simp only [roundHalfEven, hf]
  rw [if_pos (by linarith)]

lemma f32RoundPos_eq (q : ℚ) (e m : ℤ) (hq : 0 < q)
    (h1 : (2 : ℚ) ^ (e + 23) ≤ q) (h2 : q < (2 : ℚ) ^ (e + 24))
    (hm : roundHalfEven (q / (2 : ℚ) ^ e) = m) :
    f32RoundPos q = (m : ℚ) * (2 : ℚ) ^ e := by
  have hb : (1 : ℕ) < 2 := by norm_num
  have h1' : ((2 : ℕ) : ℚ) ^ (e + 23) ≤ q := by exact_mod_cast h1
  have h2' : q < ((2 : ℕ) : ℚ) ^ (e + 24) := by exact_mod_cast h2
  have hlo : e + 23 ≤ Int.log 2 q := (Int.zpow_le_iff_le_log hb hq).mp h1'
  have hhi : Int.log 2 q < e + 24 := (Int.lt_zpow_iff_log_lt hb hq).mp h2'
  have hlog : Int.log 2 q - 23 = e := by omega
  rw [f32RoundPos, hlog, hm]

lemma f32Round_pos (q : ℚ) (hq : 0 < q) : f32Round q = f32RoundPos q := by
  rw [f32Round, if_pos hq]

lemma f32Round_one : f32Round (1 : ℚ) = 1 := by
  rw [f32Round_pos _ (by norm_num),
    f32RoundPos_eq 1 (-23) 8388608 (by norm_num) (by norm_num) (by norm_num) ?_]
  · norm_num [zpow_neg]
  · have hdiv : (1 : ℚ) / (2 : ℚ) ^ (-23 : ℤ) = 8388608 := by
      rw [zpow_neg, div_inv_eq_mul]
      norm_num
    rw [hdiv]
    exact roundHalfEven_eq_of_lt_half _ _ (by norm_num) (by norm_num)

lemma f32Round_three : f32Round (3 : ℚ) = 3 := by
  rw [f32Round_pos _ (by norm_num),
    f32RoundPos_eq 3 (-22) 12582912 (by norm_num) (by norm_num) (by norm_num) ?_]
  · norm_num [zpow_neg]
  · have hdiv : (3 : ℚ) / (2 : ℚ) ^ (-22 : ℤ) = 12582912 := by
      rw [zpow_neg, div_inv_eq_mul]
      norm_num
    rw [hdiv]
    exact roundHalfEven_eq_of_lt_half _ _ (by norm_num) (by norm_num)

lemma f32Round_ten : f32Round (10 : ℚ) = 10 := by
  rw [f32Round_pos _ (by norm_num),
    f32RoundPos_eq 10 (-20) 10485760 (by norm_num) (by norm_num) (by norm_num) ?_]
  · norm_num [zpow_neg]
  · have hdiv : (10 : ℚ) / (2 : ℚ) ^ (-20 : ℤ) = 10485760 := by
      rw [zpow_neg, div_inv_eq_mul]
      norm_num
    rw [hdiv]
    exact roundHalfEven_eq_of_lt_half _ _ (by norm_num) (by norm_num)

lemma f32Round_ninety : f32Round (90 : ℚ) = 90 := by
  rw [f32Round_pos _ (by norm_num),
    f32RoundPos_eq 90 (-17) 11796480 (by norm_num) (by norm_num) (by norm_num) ?_]
  · norm_num [zpow_neg]
  · have hdiv : (90 : ℚ) / (2 : ℚ) ^ (-17 : ℤ) = 11796480 := by
      rw [zpow_neg, div_inv_eq_mul]
      norm_num
    rw [hdiv]
    exact roundHalfEven_eq_of_lt_half _ _ (by norm_num) (by norm_num)

lemma f32Round_nine_hundred : f32Round (900 : ℚ) = 900 := by
  rw [f32Round_pos _ (by norm_num),
    f32RoundPos_eq 900 (-14) 14745600 (by norm_num) (by norm_num) (by norm_num) ?_]
  · norm_num [zpow_neg]
  · have hdiv : (900 : ℚ) / (2 : ℚ) ^ (-14 : ℤ) = 14745600 := by
      rw [zpow_neg, div_inv_eq_mul]
      norm_num
    rw [hdiv]
    exact roundHalfEven_eq_of_lt_half _ _ (by norm_num) (by norm_num)

/-- The f32 value of the literal `1.6f32` is `13421773 / 8388608`
(= 1.60000002384…); its exact product with 10 is 16.0000002384…, whose f32
rounding is exactly 16 (the excess 0.0000002384… is an eighth of an ulp at
16, far below the rounding threshold). -/
lemma f32Round_of_ten_times_one_point_six :
    f32Round ((13421773 : ℚ) / 8388608 * 10) = 16 := by
  rw [show (13421773 : ℚ) / 8388608 * 10 = 134217730 / 8388608 by norm_num]
  rw [f32Round_pos _ (by norm_num),
    f32RoundPos_eq _ (-19) 8388608 (by norm_num) (by norm_num) (by norm_num) ?_]
  · norm_num [zpow_neg]
  · have hdiv : (134217730 : ℚ) / 8388608 / (2 : ℚ) ^ (-19 : ℤ) = 67108865 / 8 := by
      rw [zpow_neg, div_inv_eq_mul]
      norm_num
    rw [hdiv]
    exact roundHalfEven_eq_of_lt_half _ 8388608 (by norm_num) (by norm_num)

/-! ### Shared frame buffer (src/buffer/mod.rs) -/

/-- `SharedFrameBuffer`: the ring buffer behind the `RwLock`, plus the cached
capacity.  Locking is a no-op in this sequential embedding. -/
structure SharedFrameBuffer where
  inner : RingBuffer CapturedFrame
  capacity : Nat
deriving Repr, DecidableEq

/-- `SharedFrameBuffer::new(duration_seconds, fps)`:
`capacity = (duration_seconds * fps as f32).ceil() as usize`, computed in
IEEE f32: the `u32 → f32` cast and the product round to nearest even
(`f32Round`); the subsequent `ceil` and `as usize` are exact on the rounded
value (see the rounding-model section above).  `duration_seconds` ranges
over the f32 values, given as exact rationals. -/
def SharedFrameBuffer.new (duration_seconds : ℚ) (fps : Nat) : SharedFrameBuffer :=
  let capacity : Nat := (⌈f32Round (duration_seconds * f32Round (fps : ℚ))⌉).toNat
  { inner := RingBuffer.new CapturedFrame capacity, capacity := capacity }

/-- `SharedFrameBuffer::push_frame`: write-locked delegation to `push`. -/
def SharedFrameBuffer.push_frame (sb : SharedFrameBuffer) (frame : CapturedFrame) :
    SharedFrameBuffer :=
  { sb with inner := sb.inner.push frame }

/-- `SharedFrameBuffer::snapshot`: read-locked `get_all`, cloned out. -/
def SharedFrameBuffer.snapshot (sb : SharedFrameBuffer) : List CapturedFrame :=
  sb.inner.get_all

/-- `SharedFrameBuffer::frame_count`. -/
def SharedFrameBuffer.frame_count (sb : SharedFrameBuffer) : Nat :=
  sb.inner.len

/-- `SharedFrameBuffer::clear`. -/
def SharedFrameBuffer.clear (sb : SharedFrameBuffer) : SharedFrameBuffer :=
  { sb with inner := sb.inner.clear }

/-- Iterated `push_frame`. -/
def SharedFrameBuffer.push_frames (sb : SharedFrameBuffer) (fs : List CapturedFrame) :
    SharedFrameBuffer :=
  fs.foldl SharedFrameBuffer.push_frame sb

/-! ### Ring-buffer lemmas -/

lemma RingBuffer.capacity_push {T : Type} (b : RingBuffer T) (x : T) :
    (b.push x).capacity = b.capacity := rfl

/-- After pushing `xs` into a fresh buffer of capacity `c ≥ 1`, the contents
are the last `min |xs| c` elements of `xs`, i.e. `xs.drop (|xs| - c)`. -/
lemma RingBuffer.data_pushAll {T : Type} (c : Nat) (hc : 1 ≤ c) (xs : List T) :
    ((RingBuffer.new T c).pushAll xs).data = xs.drop (xs.length - c) ∧
      ((RingBuffer.new T c).pushAll xs).capacity = c := by
  induction xs using List.reverseRecOn with
  | nil => simp [RingBuffer.pushAll, RingBuffer.new]
  | append_singleton xs x ih =>
    obtain ⟨ihd, ihc⟩ := ih
    have hfold : (RingBuffer.new T c).pushAll (xs ++ [x])
        = ((RingBuffer.new T c).pushAll xs).push x := by
      simp [RingBuffer.pushAll, List.foldl_append]
    set b := (RingBuffer.new T c).pushAll xs with hb
    have hlen : b.data.length = xs.length - (xs.length - c) := by
      rw [ihd, List.length_drop]
    refine ⟨?_, by rw [hfold, RingBuffer.capacity_push, ihc]⟩
    rw [hfold]
    have hlapp : (xs ++ [x]).length = xs.length + 1 := by simp
    by_cases hfull : c ≤ xs.length
    · have hcle : c ≤ b.data.length := by omega
      have hstep : (b.push x).data = b.data.drop 1 ++ [x] := by
        simp [RingBuffer.push, ihc, hcle]
      rw [hstep, ihd, List.drop_drop, hlapp]
      have h2 : xs.length + 1 - c ≤ xs.length := by omega
      rw [List.drop_append_of_le_length h2]
      have h3 : 1 + (xs.length - c) = xs.length + 1 - c := by omega
      have h3' : xs.length - c + 1 = xs.length + 1 - c := by omega
      first
        | rw [h3]
        | rw [h3']
    · have hlt : b.data.length < c := by omega
      have hstep : (b.push x).data = b.data ++ [x] := by
        simp only [RingBuffer.push, ihc]
        rw [if_neg (by omega)]
      rw [hstep, ihd, hlapp]
      have h0 : xs.length - c = 0 := by omega
      have h1 : xs.length + 1 - c = 0 := by omega
      rw [h0, h1, List.drop_zero, List.drop_zero]

lemma RingBuffer.len_pushAll_le {T : Type} (c : Nat) (hc : 1 ≤ c) (xs : List T) :
    ((RingBuffer.new T c).pushAll xs).len ≤ c := by
  have h := (RingBuffer.data_pushAll c hc xs).1
  simp only [RingBuffer.len, h, List.length_drop]
  omega

lemma SharedFrameBuffer.inner_push_frames (sb : SharedFrameBuffer)
    (fs : List CapturedFrame) :
    (sb.push_frames fs).inner = sb.inner.pushAll fs := by
  induction fs generalizing sb with
  | nil => rfl
  | cons f fs ih =>
    show (SharedFrameBuffer.push_frames (sb.push_frame f) fs).inner = _
    rw [ih]
    rfl

/-! ### Claim C1 -/

/-- **C1.** For every ring buffer created with capacity `c ≥ 1` and every
sequence of `c + k` pushed items (`k ≥ 0`), the buffer's snapshot
(`RingBuffer::get_all` / `SharedFrameBuffer::snapshot`) equals exactly the
last `c` pushed items, in push order (oldest first).  Stated both for a bare
`RingBuffer` and through `SharedFrameBuffer::snapshot` for a window built by
`SharedFrameBuffer::new`. -/
theorem ring_buffer_snapshot_equals_last_capacity_pushes
    (c k : Nat) (xs : List Nat) (d : ℚ) (fps k' : Nat) (fs : List CapturedFrame)
    (hc : 1 ≤ c) (hlen : xs.length = c + k)
    (hc' : 1 ≤ (SharedFrameBuffer.new d fps).capacity)
    (hlen' : fs.length = (SharedFrameBuffer.new d fps).capacity + k') :
    ((RingBuffer.new Nat c).pushAll xs).get_all = xs.drop k ∧
      ((SharedFrameBuffer.new d fps).push_frames fs).snapshot = fs.drop k' := by
  constructor
  · have h := (RingBuffer.data_pushAll c hc xs).1
    rw [RingBuffer.get_all, h, hlen]
    congr 1
    omega
  · have h := (RingBuffer.data_pushAll (T := CapturedFrame)
      (SharedFrameBuffer.new d fps).capacity hc' fs).1
    have hfold : ((SharedFrameBuffer.new d fps).push_frames fs).snapshot
        = ((SharedFrameBuffer.new d fps).inner.pushAll fs).get_all := by
      rw [SharedFrameBuffer.snapshot, SharedFrameBuffer.inner_push_frames]
    rw [hfold]
    have hinner : (SharedFrameBuffer.new d fps).inner
        = RingBuffer.new CapturedFrame (SharedFrameBuffer.new d fps).capacity := rfl
    rw [hinner, RingBuffer.get_all, h, hlen']
    congr 1
    omega

/-- Witness for C1 at capacity 3 (duration 3, rate 1), five pushes, `k = 2`. -/
theorem ring_buffer_snapshot_equals_last_capacity_pushes_witness :
    1 ≤ 3 ∧ ([10, 11, 12, 13, 14] : List Nat).length = 3 + 2 ∧
      1 ≤ (SharedFrameBuffer.new 3 1).capacity ∧
      ([⟨[], 0, 0, 1, 1⟩, ⟨[], 1, 0, 1, 1⟩, ⟨[], 2, 0, 1, 1⟩, ⟨[], 3, 0, 1, 1⟩,
        ⟨[], 4, 0, 1, 1⟩] : List CapturedFrame).length
        = (SharedFrameBuffer.new 3 1).capacity + 2 ∧
      (((RingBuffer.new Nat 3).pushAll [10, 11, 12, 13, 14]).get_all
          = ([10, 11, 12, 13, 14] : List Nat).drop 2 ∧
        ((SharedFrameBuffer.new 3 1).push_frames
            [⟨[], 0, 0, 1, 1⟩, ⟨[], 1, 0, 1, 1⟩, ⟨[], 2, 0, 1, 1⟩, ⟨[], 3, 0, 1, 1⟩,
              ⟨[], 4, 0, 1, 1⟩]).snapshot
          = ([⟨[], 0, 0, 1, 1⟩, ⟨[], 1, 0, 1, 1⟩, ⟨[], 2, 0, 1, 1⟩, ⟨[], 3, 0, 1, 1⟩,
              ⟨[], 4, 0, 1, 1⟩] : List CapturedFrame).drop 2) := by
  have hcap : (SharedFrameBuffer.new 3 1).capacity = 3 := by
    show (⌈f32Round ((3 : ℚ) * f32Round (((1 : Nat) : ℚ)))⌉).toNat = 3
    rw [show (((1 : Nat) : ℚ)) = 1 by norm_num, f32Round_one, mul_one, f32Round_three]
    have h : ⌈(3 : ℚ)⌉ = 3 := by norm_num
    rw [h]
    rfl
  refine ⟨by decide, by decide, by rw [hcap]; decide, by rw [hcap]; decide, ?_⟩
  exact ring_buffer_snapshot_equals_last_capacity_pushes 3 2 [10, 11, 12, 13, 14] 3 1 2
    [⟨[], 0, 0, 1, 1⟩, ⟨[], 1, 0, 1, 1⟩, ⟨[], 2, 0, 1, 1⟩, ⟨[], 3, 0, 1, 1⟩,
      ⟨[], 4, 0, 1, 1⟩]
    (by decide) (by decide) (by rw [hcap]; decide) (by rw [hcap]; decide)

/-! ### Claim C8 -/

/-- An operation on the ring buffer: `push` or `clear`. -/
inductive BufferOp (T : Type) where
  | push (x : T)
  | clear
deriving Repr, DecidableEq

/-- Apply one `BufferOp`. -/
def RingBuffer.applyOp {T : Type} (b : RingBuffer T) : BufferOp T → RingBuffer T
  | BufferOp.push x => b.push x
  | BufferOp.clear => b.clear

/-- Apply a sequence of operations, left to right. -/
def RingBuffer.applyOps {T : Type} (b : RingBuffer T) (ops : List (BufferOp T)) :
    RingBuffer T :=
  ops.foldl RingBuffer.applyOp b

lemma RingBuffer.applyOps_invariant {T : Type} (c : Nat) (hc : 1 ≤ c)
    (b : RingBuffer T) (hb : b.capacity = c) (hlen : b.len ≤ c)
    (ops : List (BufferOp T)) :
    (b.applyOps ops).capacity = c ∧ (b.applyOps ops).len ≤ c := by
  induction ops generalizing b with
  | nil => exact ⟨hb, hlen⟩
  | cons op ops ih =>
    simp only [RingBuffer.applyOps, List.foldl_cons] at *
    cases op with
    | push x =>
      refine ih (b.push x) (by rw [RingBuffer.capacity_push, hb]) ?_
      simp only [RingBuffer.push, RingBuffer.len] at *
      by_cases hfull : b.capacity ≤ b.data.length
      · rw [if_pos hfull]
        simp only [List.length_append, List.length_drop, List.length_cons,
          List.length_nil]
        omega
      · rw [if_neg hfull]
        simp only [List.length_append, List.length_cons, List.length_nil]
        omega
    | clear =>
      refine ih b.clear (by simpa [RingBuffer.clear] using hb) ?_
      simp [RingBuffer.clear, RingBuffer.len]

/-- **C8.** For every ring buffer created with capacity `c ≥ 1`, `len() ≤ c`
holds after every sequence of `push` and `clear` operations, and a `push`
performed when `len() == c` leaves the buffer with exactly `c` elements with
the previously oldest element (the deque front) discarded. -/
theorem ring_buffer_len_invariant_and_overwrite (c : Nat) (hc : 1 ≤ c) :
    (∀ ops : List (BufferOp Nat), ((RingBuffer.new Nat c).applyOps ops).len ≤ c) ∧
      ∀ (b : RingBuffer Nat) (x : Nat), b.capacity = c → b.len = c →
        (b.push x).len = c ∧ (b.push x).data = b.data.drop 1 ++ [x] := by
  constructor
  · intro ops
    exact (RingBuffer.applyOps_invariant c hc (RingBuffer.new Nat c) rfl
      (by simp [RingBuffer.new, RingBuffer.len]) ops).2
  · intro b x hcap hlen
    have hfull : b.capacity ≤ b.data.length := by
      simp only [RingBuffer.len] at hlen
      omega
    have hdata : (b.push x).data = b.data.drop 1 ++ [x] := by
      simp [RingBuffer.push, hfull]
    refine ⟨?_, hdata⟩
    simp only [RingBuffer.len, hdata, List.length_append, List.length_drop,
      List.length_cons, List.length_nil]
    simp only [RingBuffer.len] at hlen
    omega

/-- Witness for C8 at capacity 2 with a full buffer `[5, 6]` and push `7`. -/
theorem ring_buffer_len_invariant_and_overwrite_witness :
    1 ≤ 2 ∧
      ((∀ ops : List (BufferOp Nat), ((RingBuffer.new Nat 2).applyOps ops).len ≤ 2) ∧
        ∀ (b : RingBuffer Nat) (x : Nat), b.capacity = 2 → b.len = 2 →
          (b.push x).len = 2 ∧ (b.push x).data = b.data.drop 1 ++ [x]) :=
  ⟨by decide, ring_buffer_len_invariant_and_overwrite 2 (by decide)⟩

/-! ### Claim C9 -/

/-- Claim C9, counterexample.  The claim says the capacity equals the exact
`ceil(duration_seconds × fps)`.  The source computes the product in IEEE f32
before taking the ceiling: at `duration_seconds = 1.6f32` (stored value
13421773/8388608 = 1.60000002384…) and `fps = 10`, the exact product is
16.0000002384… with ceiling 17, but the f32 product rounds to exactly 16.0,
so the code computes capacity 16 — the claimed formula gives 17. -/
theorem shared_buffer_capacity_not_exact_ceil :
    (SharedFrameBuffer.new (13421773 / 8388608) 10).capacity = 16 ∧
      (⌈(13421773 / 8388608 : ℚ) * ((10 : Nat) : ℚ)⌉).toNat = 17 := by
  constructor
  · show (⌈f32Round ((13421773 / 8388608 : ℚ)
        * f32Round (((10 : Nat) : ℚ)))⌉).toNat = 16
    rw [show (((10 : Nat) : ℚ)) = 10 by norm_num, f32Round_ten,
      f32Round_of_ten_times_one_point_six]
    have h : ⌈(16 : ℚ)⌉ = 16 := by norm_num
    rw [h]
    rfl
  · have h : ⌈(13421773 / 8388608 : ℚ) * ((10 : Nat) : ℚ)⌉ = 17 := by
      rw [show (13421773 / 8388608 : ℚ) * ((10 : Nat) : ℚ) = 134217730 / 8388608 by
        norm_num]
      rw [Int.ceil_eq_iff]
      constructor <;> norm_num
    rw [h]
    rfl

/-- Claim C9, amended.  `SharedFrameBuffer::new(duration_seconds, fps)`
creates a buffer whose capacity equals the ceiling of the IEEE-f32 product
`duration_seconds × (fps as f32)` — round-to-nearest-even, which coincides
with the exact `ceil(duration_seconds × fps)` whenever the product is
exactly representable — and hands that capacity to the inner ring buffer;
at the configured duration 10 and rate 90 the product is the exact 900, so
the capacity is exactly 900. -/
theorem shared_buffer_capacity_f32_ceil :
    (∀ (d : ℚ) (fps : Nat),
        (SharedFrameBuffer.new d fps).capacity
            = (⌈f32Round (d * f32Round (fps : ℚ))⌉).toNat ∧
          (SharedFrameBuffer.new d fps).inner.capacity
            = (⌈f32Round (d * f32Round (fps : ℚ))⌉).toNat) ∧
      (SharedFrameBuffer.new 10 90).capacity = 900 := by
  refine ⟨fun d fps => ⟨rfl, rfl⟩, ?_⟩
  show (⌈f32Round ((10 : ℚ) * f32Round (((90 : Nat) : ℚ)))⌉).toNat = 900
  rw [show (((90 : Nat) : ℚ)) = 90 by norm_num, f32Round_ninety,
    show (10 : ℚ) * 90 = 900 by norm_num, f32Round_nine_hundred]
  have h : ⌈(900 : ℚ)⌉ = 900 := by norm_num
  rw [h]
  rfl

/-! ### Claim C10 -/

/-- **C10.** If a `RingBuffer` is constructed with capacity 0, `push(item)`
still inserts the item: after one push, `len() == 1` and `get_all()` contains
that item, so the buffer exceeds its stated capacity — the `len() ≤ capacity`
invariant is guaranteed only for buffers created with capacity ≥ 1. -/
theorem zero_capacity_push_exceeds_capacity (x : Nat) :
    ((RingBuffer.new Nat 0).push x).len = 1 ∧
      ((RingBuffer.new Nat 0).push x).get_all = [x] ∧
      ((RingBuffer.new Nat 0).push x).capacity < ((RingBuffer.new Nat 0).push x).len := by
  refine ⟨rfl, rfl, ?_⟩
  show 0 < 1
  decide

/-! ### Encoder errors (src/error.rs, `EncoderErrorKind`) -/

/-- `EncoderErrorKind` (src/error.rs).  Note the enum has no `EmptyInput`
variant. -/
inductive EncoderErrorKind where
  | HardwareEncoderUnavailable
  | InitializationFailed (reason : String)
  | FrameEncodeFailed (reason : String)
  | InvalidFrameData
  | OutputBufferFull
  | FinalizationFailed (reason : String)
deriving Repr, DecidableEq

/-! ### Configuration (src/config.rs), the fields the encoder reads -/

/-- The `Config` fields `encode_frames` reads (`target_fps`, `video_bitrate`).
The remaining settings play no part in the modelled code paths. -/
structure Config where
  target_fps : Nat
  video_bitrate : Nat
deriving Repr, DecidableEq

/-- `Config::default()`: 90 FPS, 20 Mbps (src/config.rs). -/
def Config.defaults : Config :=
  { target_fps := 90, video_bitrate := 20000000 }

/-! ### Video encoder and MP4 muxer (src/encoder/mod.rs) -/

/-- `VideoEncoder` (src/encoder/mod.rs).  `new` never fails in the source. -/
structure VideoEncoder where
  width : Nat
  height : Nat
  fps : Nat
  bitrate : Nat
  frames_encoded : Nat
deriving Repr, DecidableEq

/-- `VideoEncoder::new`. -/
def VideoEncoder.new (width height fps bitrate : Nat) : VideoEncoder :=
  { width := width, height := height, fps := fps, bitrate := bitrate,
    frames_encoded := 0 }

/-- `VideoEncoder::encode_frame` (placeholder in the source): bumps
`frames_encoded` and returns 10 000 zero bytes regardless of the input
pixels and timestamp. -/
def VideoEncoder.encode_frame (e : VideoEncoder) (raw_pixels : List Nat)
    (pts_us : Nat) : VideoEncoder × List Nat :=
  ({ e with frames_encoded := e.frames_encoded + 1 }, List.replicate 10000 0)

/-- `Mp4Muxer` (src/encoder/mod.rs): buffered `(data, pts)` pairs until
`finalize`. -/
structure Mp4Muxer where
  output_path : String
  width : Nat
  height : Nat
  fps : Nat
  frame_data : List (List Nat × Nat)
deriving Repr, DecidableEq

/-- `Mp4Muxer::new`. -/
def Mp4Muxer.new (output_path : String) (width height fps : Nat) : Mp4Muxer :=
  { output_path := output_path, width := width, height := height, fps := fps,
    frame_data := [] }

/-- `Mp4Muxer::add_frame`. -/
def Mp4Muxer.add_frame (m : Mp4Muxer) (data : List Nat) (pts_us : Nat) : Mp4Muxer :=
  { m with frame_data := m.frame_data ++ [(data, pts_us)] }

/-- Little-endian bytes of `n as u32` (`u32::to_le_bytes` after the `usize`
to `u32` truncation). -/
def u32ToLeBytes (n : Nat) : List Nat :=
  [n % 256, n / 256 % 256, n / 65536 % 256, n / 16777216 % 256]

/-- The bytes `b"MP4_PLACEHOLDER"` that `finalize` writes. -/
def mp4PlaceholderMarker : List Nat :=
  (String.toList "MP4_PLACEHOLDER").map Char.toNat

/-- `Mp4Muxer::finalize`: writes the placeholder marker, then the frame count
as a little-endian u32.  The returned list is the full contents of the
output file; the frames' payloads are never written. -/
def Mp4Muxer.finalize (m : Mp4Muxer) : List Nat :=
  mp4PlaceholderMarker ++ u32ToLeBytes m.frame_data.length

/-- The per-frame loop of `VideoEncoder::encode_frames`: decode the JPEG
payload, encode it, hand the bytes to the muxer at
`pts = index * frame_duration_us`. -/
def encodeFramesLoop (decode_jpeg : List Nat → Except EncoderErrorKind (List Nat))
    (frame_duration_us : Nat) :
    List CapturedFrame → Nat → VideoEncoder → Mp4Muxer →
      Except EncoderErrorKind Mp4Muxer
  | [], _, _, m => Except.ok m
  | f :: rest, index, e, m =>
    match decode_jpeg f.data with
    | Except.error err => Except.error err
    | Except.ok raw =>
      let pts_us := index * frame_duration_us
      let step := e.encode_frame raw pts_us
      encodeFramesLoop decode_jpeg frame_duration_us rest (index + 1) step.1
        (m.add_frame step.2 pts_us)

/-- `VideoEncoder::encode_frames` (src/encoder/mod.rs lines 106–172).
`decode_jpeg` is the external `image`-crate decoder, passed as a parameter.
The result carries the bytes written to `output_path`; `none` records that
the source returned `Ok(())` before any muxer or file existed (the empty
input path). -/
def VideoEncoder.encode_frames
    (decode_jpeg : List Nat → Except EncoderErrorKind (List Nat))
    (frames : List CapturedFrame) (output_path : String) (config : Config) :
    Except EncoderErrorKind (Option (List Nat)) :=
  match frames with
  | [] => Except.ok none
  | first :: _ =>
    let encoder := VideoEncoder.new first.width first.height config.target_fps
      config.video_bitrate
    let muxer := Mp4Muxer.new output_path first.width first.height config.target_fps
    let frame_duration_us := 1000000 / config.target_fps
    match encodeFramesLoop decode_jpeg frame_duration_us frames 0 encoder muxer with
    | Except.error e => Except.error e
    | Except.ok m => Except.ok (some m.finalize)

/-- A JPEG-decoder oracle that accepts every payload. -/
def decodeJpegOk : List Nat → Except EncoderErrorKind (List Nat) :=
  fun _ => Except.ok []

/-! ### Claim C4 -/

/-- **C4, counterexample.**  The claim says `encode_frames` fails with an
`EmptyInput` error on an empty frame sequence.  In the source (lines
111–114) it logs a warning and returns `Ok(())` — success, with no file
written — and `EncoderErrorKind` has no `EmptyInput` variant at all. -/
theorem encode_frames_empty_input_returns_ok :
    VideoEncoder.encode_frames decodeJpegOk [] "clip.qsp" Config.defaults
      = Except.ok none := rfl

/-- **C4, amended.**  `VideoEncoder::encode_frames` called with an empty
frame sequence reports success immediately (`Ok(())`), writing no file, for
every JPEG decoder, output path and configuration. -/
theorem encode_frames_empty_input_reports_success
    (decode_jpeg : List Nat → Except EncoderErrorKind (List Nat))
    (output_path : String) (config : Config) :
    VideoEncoder.encode_frames decode_jpeg [] output_path config
      = Except.ok none := rfl

/-! ### Claim C3 -/

/-- **C3.**  The round-trip law `read(encode(F)) == F` cannot hold for the
encoder in src/encoder/mod.rs: the file it writes is the fixed marker
`b"MP4_PLACEHOLDER"` plus the frame count, so two different frame sequences
(here, two single frames that differ in their timestamp) produce identical
files, and **no** reader function `g` whatsoever can recover `F` from the
encoder's output — whatever the JPEG decoder does. -/
theorem encode_frames_admits_no_reader :
    ∀ (decode_jpeg : List Nat → Except EncoderErrorKind (List Nat))
      (g : List Nat → List CapturedFrame),
      ¬ (∀ F : List CapturedFrame, F ≠ [] →
          ∃ file,
            VideoEncoder.encode_frames decode_jpeg F "clip.qsp" Config.defaults
                = Except.ok (some file) ∧
              g file = F) := by
  intro dec g h
  obtain ⟨f1, he1, hg1⟩ := h [⟨[], 0, 0, 1, 1⟩] (by simp)
  obtain ⟨f2, he2, hg2⟩ := h [⟨[], 1, 0, 1, 1⟩] (by simp)
  have heq :
      VideoEncoder.encode_frames dec [⟨[], 0, 0, 1, 1⟩] "clip.qsp" Config.defaults
        = VideoEncoder.encode_frames dec [⟨[], 1, 0, 1, 1⟩] "clip.qsp"
            Config.defaults := rfl
  rw [heq, he2] at he1
  have hfile : f2 = f1 := by
    simpa using he1
  have hlists : ([⟨[], 0, 0, 1, 1⟩] : List CapturedFrame) = [⟨[], 1, 0, 1, 1⟩] := by
    rw [← hg1, ← hg2, hfile]
  simp at hlists

/-! ### Save orchestration (src/lib.rs, `QuestShadowplay::trigger_save`) -/

/-- The observable `QuestShadowplay` state that `trigger_save` touches: the
`is_saving` atomic flag and the shared frame buffer. -/
structure AppState where
  is_saving : Bool
  buffer : SharedFrameBuffer
deriving Repr, DecidableEq

/-- A record of one `trigger_save` call with the spawned thread's body run to
completion.  `flag_trace` lists the successive values of the `is_saving`
flag the call observes or stores: at entry, after the claim (`store true`)
and after the release (`store false`). -/
structure SaveRun where
  started : Bool
  flag_trace : List Bool
  snapshot_taken : Option (List CapturedFrame)
  encode_input : Option (List CapturedFrame)
  encode_result : Option (Except EncoderErrorKind Unit)
  final_state : AppState

/-- `QuestShadowplay::trigger_save` (src/lib.rs lines 186–231), sequentially:
load the flag; if set, return having done nothing; otherwise store `true`,
spawn the worker, and — worker body — snapshot the buffer, encode, and store
`false` whatever the encode outcome.  Filename generation and
`encode_frames` are abstracted into the `encode` parameter.  The buffer is
never written. -/
def trigger_save (encode : List CapturedFrame → Except EncoderErrorKind Unit)
    (s : AppState) : SaveRun :=
  if s.is_saving then
    { started := false, flag_trace := [true], snapshot_taken := none,
      encode_input := none, encode_result := none, final_state := s }
  else
    let claimed : AppState := { s with is_saving := true }
    let frames := claimed.buffer.snapshot
    let result := encode frames
    { started := true, flag_trace := [false, true, false],
      snapshot_taken := some frames, encode_input := some frames,
      encode_result := some result,
      final_state := { claimed with is_saving := false } }

/-! ### Claim C2 -/

/-- **C2.**  If `trigger_save` runs while the `saving` flag is already true,
it returns without starting a save — no snapshot, no encode, state (hence
buffer) unchanged.  If the flag was false, the save starts and, whatever
the encode outcome (`encode` is universally quantified), the flag ends
false again, with lifecycle false → true (claimed) → encode → false
(released), the buffer untouched. -/
theorem trigger_save_saving_flag_lifecycle
    (encode : List CapturedFrame → Except EncoderErrorKind Unit) (s : AppState) :
    (s.is_saving = true →
      (trigger_save encode s).started = false ∧
        (trigger_save encode s).snapshot_taken = none ∧
        (trigger_save encode s).encode_input = none ∧
        (trigger_save encode s).final_state = s) ∧
    (s.is_saving = false →
      (trigger_save encode s).started = true ∧
        (trigger_save encode s).flag_trace = [false, true, false] ∧
        (trigger_save encode s).encode_result = some (encode s.buffer.snapshot) ∧
        (trigger_save encode s).final_state.is_saving = false ∧
        (trigger_save encode s).final_state.buffer = s.buffer) := by
  constructor
  · intro hs
    simp [trigger_save, hs]
  · intro hs
    simp [trigger_save, hs]

/-! ### Claim C7 -/

/-- Steps of `trigger_save`, tagged by the execution context that runs them
(src/lib.rs lines 186–231). -/
inductive SaveOp where
  | load_flag
  | store_flag_true
  | spawn_thread
  | snapshot
  | generate_filename
  | encode
  | store_flag_false
deriving Repr, DecidableEq

/-- The steps `trigger_save` runs on the calling context, by flag value:
load the flag; if clear, store `true` and spawn the worker thread.  The
snapshot is not among them. -/
def trigger_save_caller_ops (is_saving : Bool) : List SaveOp :=
  if is_saving then [SaveOp.load_flag]
  else [SaveOp.load_flag, SaveOp.store_flag_true, SaveOp.spawn_thread]

/-- The steps the spawned thread runs (the closure body, src/lib.rs lines
206–230): snapshot, filename generation, encode, flag release. -/
def trigger_save_spawned_ops (is_saving : Bool) : List SaveOp :=
  if is_saving then []
  else [SaveOp.snapshot, SaveOp.generate_filename, SaveOp.encode,
    SaveOp.store_flag_false]

/-- **C7, counterexample.**  The claim says the snapshot is obtained
synchronously on the calling context before dispatching to the background
context.  In the source the `buffer.snapshot()` call is the first statement
*inside* the `thread::spawn` closure: on a call that claims the flag
(`is_saving = false`), the snapshot step belongs to the spawned context's
step list and not to the calling context's. -/
theorem snapshot_not_on_calling_context :
    SaveOp.snapshot ∈ trigger_save_spawned_ops false ∧
      SaveOp.snapshot ∉ trigger_save_caller_ops false := by
  decide

/-- **C7, amended.**  When `trigger_save` claims the saving flag, the
calling context only tests the flag, stores `true` and spawns; the snapshot
is the spawned context's first step, taken before encoding, and it reads the
buffer contents as of the moment the worker body runs. -/
theorem snapshot_first_step_of_spawned_context
    (encode : List CapturedFrame → Except EncoderErrorKind Unit)
    (s : AppState) (b : Bool) :
    SaveOp.snapshot ∉ trigger_save_caller_ops b ∧
      (trigger_save_spawned_ops false).head? = some SaveOp.snapshot ∧
      (trigger_save_spawned_ops false).indexOf SaveOp.snapshot
          < (trigger_save_spawned_ops false).indexOf SaveOp.encode ∧
      (s.is_saving = false →
        (trigger_save encode s).snapshot_taken = some s.buffer.snapshot) := by
  refine ⟨?_, by decide, by decide, ?_⟩
  · cases b <;> decide
  · intro hs
    simp [trigger_save, hs]

/-! ### Command layer (src-tauri/src/commands.rs, `save_clip`) -/

/-- The `AppState` fields of the command layer (src-tauri/src/state.rs) that
`save_clip` touches. -/
structure TauriAppState where
  buffer : SharedFrameBuffer
  is_recording : Bool
  clips_directory : String
deriving Repr, DecidableEq

/-- `SaveResult` (src-tauri/src/commands.rs).  Messages are abbreviated to
the branch they come from. -/
structure SaveResult where
  success : Bool
  message : String
  clip_id : Option String
deriving Repr, DecidableEq

/-- `save_clip` (src-tauri/src/commands.rs lines 97–156): snapshot the
buffer; empty snapshot or failed directory creation (`mkdir_ok = false`)
report failure and change nothing; a successful encode clears the buffer; a
failed encode leaves the state untouched and reports failure.
`StorageManager::generate_filename` is opaque (the `clip_id` parameter),
and the encoder run is the `encode` parameter. -/
def save_clip (mkdir_ok : Bool)
    (encode : List CapturedFrame → Except EncoderErrorKind Unit)
    (clip_id : String) (s : TauriAppState) : TauriAppState × SaveResult :=
  let frames := s.buffer.snapshot
  if frames.isEmpty then
    (s, { success := false, message := "No frames in buffer", clip_id := none })
  else if !mkdir_ok then
    (s, { success := false, message := "Failed to create directory", clip_id := none })
  else
    match encode frames with
    | Except.ok _ =>
      ({ s with buffer := s.buffer.clear },
        { success := true, message := "Saved frames", clip_id := some clip_id })
    | Except.error _ =>
      (s, { success := false, message := "Encoding failed", clip_id := none })

/-! ### Claim C5 -/

/-- **C5.**  Whenever encoding fails during a save, the frame buffer's
contents are left unchanged — `clear` is never reached on the failure path
— and the saving flag is released, so a new trigger can immediately start
another save.  Stated for `trigger_save` (src/lib.rs) under a failing
encoder, with the corresponding `save_clip` (src-tauri/src/commands.rs)
property as the last conjunct.  Totality of the embedding reflects that the
failure path never panics. -/
theorem failed_save_leaves_buffer_and_releases_flag
    (encode retry_encode : List CapturedFrame → Except EncoderErrorKind Unit)
    (s : AppState) (err : EncoderErrorKind)
    (hs : s.is_saving = false)
    (hfail : encode s.buffer.snapshot = Except.error err) :
    (trigger_save encode s).started = true ∧
      (trigger_save encode s).encode_result = some (Except.error err) ∧
      (trigger_save encode s).final_state.buffer = s.buffer ∧
      (trigger_save encode s).final_state.is_saving = false ∧
      (trigger_save retry_encode (trigger_save encode s).final_state).started
        = true ∧
      ∀ (mkdir_ok : Bool)
        (encode_cmd : List CapturedFrame → Except EncoderErrorKind Unit)
        (clip_id : String) (cs : TauriAppState) (err_cmd : EncoderErrorKind),
        encode_cmd cs.buffer.snapshot = Except.error err_cmd →
          (save_clip mkdir_ok encode_cmd clip_id cs).1 = cs ∧
            (save_clip mkdir_ok encode_cmd clip_id cs).1.buffer = cs.buffer ∧
            (save_clip mkdir_ok encode_cmd clip_id cs).2.success = false := by
  refine ⟨?_, ?_, ?_, ?_, ?_, ?_⟩
  · simp [trigger_save, hs]
  · simp [trigger_save, hs, hfail]
  · simp [trigger_save, hs]
  · simp [trigger_save, hs]
  · simp [trigger_save, hs]
  · intro mkdir_ok encode_cmd clip_id cs err_cmd hfail_cmd
    by_cases hemp : cs.buffer.snapshot.isEmpty
    · refine ⟨?_, ?_, ?_⟩ <;> simp [save_clip, hemp]
    · by_cases hmk : mkdir_ok
      · refine ⟨?_, ?_, ?_⟩ <;> simp [save_clip, hemp, hmk, hfail_cmd]
      · refine ⟨?_, ?_, ?_⟩ <;> simp [save_clip, hemp, hmk]

/-- An encoder run that always fails with `InvalidFrameData`. -/
def encodeAlwaysFails : List CapturedFrame → Except EncoderErrorKind Unit :=
  fun _ => Except.error EncoderErrorKind.InvalidFrameData

/-- A concrete capacity-2 window holding one frame. -/
def sampleWindow : SharedFrameBuffer :=
  { inner := { data := [⟨[7], 5, 0, 1, 1⟩], capacity := 2 }, capacity := 2 }

/-- A concrete idle application state: flag clear, one buffered frame in a
capacity-2 window. -/
def sampleAppState : AppState :=
  { is_saving := false, buffer := sampleWindow }

/-- Witness for C5 at `sampleAppState` with an always-failing encoder. -/
theorem failed_save_leaves_buffer_and_releases_flag_witness :
    sampleAppState.is_saving = false ∧
      encodeAlwaysFails sampleAppState.buffer.snapshot
          = Except.error EncoderErrorKind.InvalidFrameData ∧
      ((trigger_save encodeAlwaysFails sampleAppState).started = true ∧
        (trigger_save encodeAlwaysFails sampleAppState).encode_result
            = some (Except.error EncoderErrorKind.InvalidFrameData) ∧
        (trigger_save encodeAlwaysFails sampleAppState).final_state.buffer
            = sampleAppState.buffer ∧
        (trigger_save encodeAlwaysFails sampleAppState).final_state.is_saving
            = false ∧
        (trigger_save encodeAlwaysFails
            (trigger_save encodeAlwaysFails sampleAppState).final_state).started
          = true ∧
        ∀ (mkdir_ok : Bool)
          (encode_cmd : List CapturedFrame → Except EncoderErrorKind Unit)
          (clip_id : String) (cs : TauriAppState) (err_cmd : EncoderErrorKind),
          encode_cmd cs.buffer.snapshot = Except.error err_cmd →
            (save_clip mkdir_ok encode_cmd clip_id cs).1 = cs ∧
              (save_clip mkdir_ok encode_cmd clip_id cs).1.buffer = cs.buffer ∧
              (save_clip mkdir_ok encode_cmd clip_id cs).2.success = false) :=
  ⟨rfl, rfl,
    failed_save_leaves_buffer_and_releases_flag encodeAlwaysFails encodeAlwaysFails
      sampleAppState EncoderErrorKind.InvalidFrameData rfl rfl⟩

/-! ### Input handling (src/input/mod.rs) -/

/-- `InputState`: the controller sample.  Analog axes (`f32` in the source)
are modelled as `ℚ`; all fields default to the Rust `Default` values. -/
structure InputState where
  left_trigger : ℚ := 0
  left_grip : ℚ := 0
  left_stick_x : ℚ := 0
  left_stick_y : ℚ := 0
  left_stick_click : Bool := false
  left_x_button : Bool := false
  left_y_button : Bool := false
  left_menu_button : Bool := false
  right_trigger : ℚ := 0
  right_grip : ℚ := 0
  right_stick_x : ℚ := 0
  right_stick_y : ℚ := 0
  right_stick_click : Bool := false
  right_a_button : Bool := false
  right_b_button : Bool := false
  right_system_button : Bool := false
deriving Repr, DecidableEq

/-- `InputState::left_trigger_pressed` (`> 0.9`). -/
def InputState.left_trigger_pressed (s : InputState) : Bool :=
  decide ((0.9 : ℚ) < s.left_trigger)

/-- `InputState::left_grip_pressed` (`> 0.9`). -/
def InputState.left_grip_pressed (s : InputState) : Bool :=
  decide ((0.9 : ℚ) < s.left_grip)

/-- `InputState::right_trigger_pressed` (`> 0.9`). -/
def InputState.right_trigger_pressed (s : InputState) : Bool :=
  decide ((0.9 : ℚ) < s.right_trigger)

/-- `InputState::right_grip_pressed` (`> 0.9`). -/
def InputState.right_grip_pressed (s : InputState) : Bool :=
  decide ((0.9 : ℚ) < s.right_grip)

/-- `TriggerButton` (src/config.rs). -/
inductive TriggerButton where
  | LeftGripAndTrigger
  | RightGripAndTrigger
  | BothGrips
  | Custom (description : String)
deriving Repr, DecidableEq

/-- `InputHandler` (src/input/mod.rs).  `Duration`/`Instant` are modelled as
a monotone `Nat` clock (milliseconds); `Instant::now()` becomes the explicit
`now` argument of `check_save_triggered`, and `last_time.elapsed()` becomes
`now - last_time`. -/
structure InputHandler where
  trigger_button : TriggerButton
  debounce_duration : Nat
  last_trigger_time : Option Nat
  was_pressed_last_frame : Bool
  current_state : InputState
deriving Repr, DecidableEq

/-- `InputHandler::new`: 500 ms debounce, no previous trigger, nothing held,
inputs at rest. -/
def InputHandler.new (trigger_button : TriggerButton) : InputHandler :=
  { trigger_button := trigger_button, debounce_duration := 500,
    last_trigger_time := none, was_pressed_last_frame := false,
    current_state := {} }

/-- `InputHandler::update`. -/
def InputHandler.update (h : InputHandler) (new_state : InputState) : InputHandler :=
  { h with current_state := new_state }

/-- `InputHandler::is_trigger_pressed`. -/
def InputHandler.is_trigger_pressed (h : InputHandler) : Bool :=
  match h.trigger_button with
  | TriggerButton.LeftGripAndTrigger =>
    h.current_state.left_grip_pressed && h.current_state.left_trigger_pressed
  | TriggerButton.RightGripAndTrigger =>
    h.current_state.right_grip_pressed && h.current_state.right_trigger_pressed
  | TriggerButton.BothGrips =>
    h.current_state.left_grip_pressed && h.current_state.right_grip_pressed
  | TriggerButton.Custom _ => false

/-- `InputHandler::check_save_triggered` (src/input/mod.rs lines 213–237):
rising-edge detection, then the debounce gate against the last emitted
event's time. -/
def InputHandler.check_save_triggered (h : InputHandler) (now : Nat) :
    InputHandler × Bool :=
  let is_pressed := h.is_trigger_pressed
  let just_pressed := is_pressed && !h.was_pressed_last_frame
  let h1 := { h with was_pressed_last_frame := is_pressed }
  if !just_pressed then
    (h1, false)
  else
    match h1.last_trigger_time with
    | some last_time =>
      if now - last_time < h1.debounce_duration then
        (h1, false)
      else
        ({ h1 with last_trigger_time := some now }, true)
    | none => ({ h1 with last_trigger_time := some now }, true)

/-- `is_trigger_pressed` reads only the combo definition and the current
sample; the debounce bookkeeping fields do not influence it. -/
lemma InputHandler.is_trigger_pressed_mk (tb : TriggerButton) (db db' : Nat)
    (lt lt' : Option Nat) (wp wp' : Bool) (cs : InputState) :
    (InputHandler.mk tb db lt wp cs).is_trigger_pressed
      = (InputHandler.mk tb db' lt' wp' cs).is_trigger_pressed := by
  cases tb <;> rfl

/-! ### Claim C6 -/

/-- **C6.**  `check_save_triggered` emits at most one event per
press-and-hold cycle and debounces rising edges:
1. an emission happens only on a sample where the combo is engaged and was
   not engaged on the immediately preceding sample (rising edge);
2. while the combo stays held, nothing is emitted again;
3. a rising edge less than `debounce_duration` after the last emitted event
   returns `false`;
4. press (at `t1`) – release – press again (at `t2`, with
   `t2 - t1 < debounce_duration`) emits exactly one event: `true`, `false`,
   `false`. -/
theorem check_save_triggered_edge_and_debounce
    (h0 : InputHandler) (t1 tr t2 : Nat) (sEng sRel : InputState)
    (hfresh_time : h0.last_trigger_time = none)
    (hfresh_edge : h0.was_pressed_last_frame = false)
    (hEng : (h0.update sEng).is_trigger_pressed = true)
    (hRel : (h0.update sRel).is_trigger_pressed = false)
    (hdeb : t2 - t1 < h0.debounce_duration) :
    (∀ (h : InputHandler) (now : Nat),
        (h.check_save_triggered now).2 = true →
          h.is_trigger_pressed = true ∧ h.was_pressed_last_frame = false) ∧
      (∀ (h : InputHandler) (now : Nat), h.was_pressed_last_frame = true →
        (h.check_save_triggered now).2 = false) ∧
      (∀ (h : InputHandler) (now last : Nat), h.last_trigger_time = some last →
        now - last < h.debounce_duration → (h.check_save_triggered now).2 = false) ∧
      ((h0.update sEng).check_save_triggered t1).2 = true ∧
      ((((h0.update sEng).check_save_triggered t1).1.update
          sRel).check_save_triggered tr).2 = false ∧
      ((((((h0.update sEng).check_save_triggered t1).1.update
          sRel).check_save_triggered tr).1.update sEng).check_save_triggered t2).2
        = false := by
  have hEngC : ∀ (db : Nat) (lt : Option Nat) (wp : Bool),
      (InputHandler.mk h0.trigger_button db lt wp sEng).is_trigger_pressed = true := by
    intro db lt wp
    rw [InputHandler.is_trigger_pressed_mk h0.trigger_button db h0.debounce_duration
      lt h0.last_trigger_time wp h0.was_pressed_last_frame sEng]
    exact hEng
  have hRelC : ∀ (db : Nat) (lt : Option Nat) (wp : Bool),
      (InputHandler.mk h0.trigger_button db lt wp sRel).is_trigger_pressed = false := by
    intro db lt wp
    rw [InputHandler.is_trigger_pressed_mk h0.trigger_button db h0.debounce_duration
      lt h0.last_trigger_time wp h0.was_pressed_last_frame sRel]
    exact hRel
  have e1 : (h0.update sEng).check_save_triggered t1
      = (InputHandler.mk h0.trigger_button h0.debounce_duration (some t1) true sEng,
        true) := by
    simp [InputHandler.check_save_triggered, InputHandler.update, hEngC,
      hfresh_edge, hfresh_time]
  have e2 : ((InputHandler.mk h0.trigger_button h0.debounce_duration (some t1) true
      sEng).update sRel).check_save_triggered tr
      = (InputHandler.mk h0.trigger_button h0.debounce_duration (some t1) false sRel,
        false) := by
    simp [InputHandler.check_save_triggered, InputHandler.update, hRelC]
  refine ⟨?_, ?_, ?_, ?_, ?_, ?_⟩
  · intro h now hres
    cases hp : h.is_trigger_pressed with
    | false => simp [InputHandler.check_save_triggered, hp] at hres
    | true =>
      cases hw : h.was_pressed_last_frame with
      | true => simp [InputHandler.check_save_triggered, hp, hw] at hres
      | false => exact ⟨rfl, rfl⟩
  · intro h now hw
    simp [InputHandler.check_save_triggered, hw]
  · intro h now last hlast hd
    by_cases hjp : (h.is_trigger_pressed && !h.was_pressed_last_frame) = true
    · simp [InputHandler.check_save_triggered, hjp, hlast, hd]
    · rw [Bool.not_eq_true] at hjp
      simp [InputHandler.check_save_triggered, hjp]
  · rw [e1]
  · rw [e1]
    show (((InputHandler.mk h0.trigger_button h0.debounce_duration (some t1) true
        sEng).update sRel).check_save_triggered tr).2 = false
    rw [e2]
  · rw [e1]
    show ((((((InputHandler.mk h0.trigger_button h0.debounce_duration (some t1) true
        sEng).update sRel).check_save_triggered tr).1).update
          sEng).check_save_triggered t2).2 = false
    rw [e2]
    show (((InputHandler.mk h0.trigger_button h0.debounce_duration (some t1) false
        sRel).update sEng).check_save_triggered t2).2 = false
    simp [InputHandler.check_save_triggered, InputHandler.update, hEngC, hdeb]

/-- `InputState::new` (all inputs at rest). -/
def InputState.new : InputState := {}

/-- A sample with the default left-hand combo fully engaged. -/
def comboHeldSample : InputState := { left_trigger := 1, left_grip := 1 }

/-- A fresh handler with the default combo. -/
def triggerHandler : InputHandler :=
  InputHandler.new TriggerButton.LeftGripAndTrigger

/-- Witness for C6: default handler, full press at `t = 0`, release, press
again at `t = 400 < 500`. -/
theorem check_save_triggered_edge_and_debounce_witness :
    triggerHandler.last_trigger_time = none ∧
      triggerHandler.was_pressed_last_frame = false ∧
      (triggerHandler.update comboHeldSample).is_trigger_pressed = true ∧
      (triggerHandler.update InputState.new).is_trigger_pressed = false ∧
      400 - 0 < triggerHandler.debounce_duration ∧
      ((∀ (h : InputHandler) (now : Nat),
          (h.check_save_triggered now).2 = true →
            h.is_trigger_pressed = true ∧ h.was_pressed_last_frame = false) ∧
        (∀ (h : InputHandler) (now : Nat), h.was_pressed_last_frame = true →
          (h.check_save_triggered now).2 = false) ∧
        (∀ (h : InputHandler) (now last : Nat), h.last_trigger_time = some last →
          now - last < h.debounce_duration →
            (h.check_save_triggered now).2 = false) ∧
        ((triggerHandler.update comboHeldSample).check_save_triggered 0).2 = true ∧
        ((((triggerHandler.update comboHeldSample).check_save_triggered 0).1.update
            InputState.new).check_save_triggered 100).2 = false ∧
        ((((((triggerHandler.update comboHeldSample).check_save_triggered
            0).1.update InputState.new).check_save_triggered 100).1.update
            comboHeldSample).check_save_triggered 400).2 = false) := by
  have hEngW : (triggerHandler.update comboHeldSample).is_trigger_pressed = true := by
    norm_num [triggerHandler, InputHandler.new, InputHandler.update,
      InputHandler.is_trigger_pressed, comboHeldSample,
      InputState.left_grip_pressed, InputState.left_trigger_pressed]
  have hRelW : (triggerHandler.update InputState.new).is_trigger_pressed = false := by
    norm_num [triggerHandler, InputHandler.new, InputHandler.update,
      InputHandler.is_trigger_pressed, InputState.new,
      InputState.left_grip_pressed, InputState.left_trigger_pressed]
  have hdebW : 400 - 0 < triggerHandler.debounce_duration := by
    show 400 - 0 < 500
    decide
  exact ⟨rfl, rfl, hEngW, hRelW, hdebW,
    check_save_triggered_edge_and_debounce triggerHandler 0 100 400 comboHeldSample
      InputState.new rfl rfl hEngW hRelW hdebW⟩

end QuestShadowplay
